import Mathlib

/-!
# ChipM8: the CHIP-8 interpreter core of `src/Chip8.cpp`

A shallow embedding of `Chip8::initialize`, `Chip8::loadGame` and
`Chip8::emulateCycle`, and the properties of reset, ROM loading and one
emulation step.

Conventions of the embedding.

* `Chip8.h` is not part of the sources; the members of the class are the names
  `Chip8.cpp` uses, and their widths are those of the data model (8-bit
  registers, timers and memory cells, 16-bit `pc`, `I`, `opcode` and stack
  slots).
* Machine integers are natural numbers; arithmetic on a member and the casts
  of the source reduce modulo the width of the member (`% 256`, `% 65536`).
* An array is a total map from index to value; the declared array is the part
  of the map below its length.  The source checks no index.  A store past the
  end of an array (`stack[16]`) has no defined effect in C++ and what it hits
  depends on the layout of the class; the map then shows a cell outside the
  array, which is a convention of the embedding and not a statement about the
  program.  `stackStoreIndex` tells where the stack store of a step lands.
* What the step writes to `std::cout` / `std::cerr` is appended to `out`.
-/

set_option maxRecDepth 8000

namespace ChipM8

/-- Lines written to the console by `emulateCycle` and `loadGame`. -/
inductive Output where
  /-- The line `<opcode>: Running 0x00E0, clearing display.` on `std::cout`. -/
  | clearingDisplay (opcode : Nat)
  /-- The line `<opcode>: Running 0x00EE, return from subroutine.` on `std::cout`. -/
  | returnFromSubroutine (opcode : Nat)
  /-- The line `Opcode not recognized. Skipping...` on `std::cerr`. -/
  | notRecognized
  /-- The line `BEEP` on `std::cout`. -/
  | beep
  /-- The line `Reading ROM file into buffer.` on `std::cout`. -/
  | readingRom
  /-- The line `Loading from buffer into memory` on `std::cout`. -/
  | loadingBuffer
  /-- The line `File couldn't be read.` on `std::cerr`. -/
  | fileUnreadable
  deriving DecidableEq, Repr

/-- Modelled from the spec: the class declaration `Chip8.h` is missing; the
members are those `Chip8.cpp` reads and writes, with the widths of the data
model: `memory` 4096 bytes, `V` 16 bytes, `stack` 16 16-bit slots, `key` 16
cells, `gfx` 64*32 cells, 16-bit `opcode`, `I`, `pc`, 8-bit timers.  The data
model gives no width for `sp`; it is taken as 16-bit like `pc`, and the
properties below only meet values of `sp` up to 16, where no integer type
wraps. -/
structure Chip8 where
  opcode : Nat
  memory : Nat → Nat
  V : Nat → Nat
  I : Nat
  pc : Nat
  gfx : Nat → Nat
  delayTimer : Nat
  soundTimer : Nat
  stack : Nat → Nat
  sp : Nat
  key : Nat → Nat
  out : List Output

/-- The store `a[i] = v` on an array modelled as a map. -/
def store (a : Nat → Nat) (i v : Nat) : Nat → Nat :=
  fun j => if j = i then v else a j

/-- The reset `Chip8::initialize` (Chip8.cpp lines 5-31; `initialize` is a
reserved word of Lean): the assignments and the three
clearing loops.  Opening the trace file does not touch the machine state. -/
def initialise (s : Chip8) : Chip8 :=
  { s with
    pc := 0x200
    opcode := 0
    I := 0
    sp := 0
    memory := fun i => if i < 4096 then 0 else s.memory i
    V := fun i => if i < 16 then 0 else s.V i
    stack := fun i => if i < 16 then 0 else s.stack i
    key := fun i => if i < 16 then 0 else s.key i
    gfx := fun i => if i < 64 * 32 then 0 else s.gfx i
    delayTimer := 0
    soundTimer := 0 }

/-- The call `fread(buffer, sizeof(char), 4096 - 512, file)` (line 60) on a
stream that delivers the bytes `rom`: the first `count` cells of the buffer, or
as many as the stream has, receive its bytes; the other cells keep what they
held. -/
def fread (buffer : Nat → Nat) (count : Nat) (rom : List Nat) : Nat → Nat :=
  fun i => if i < count ∧ i < rom.length then rom.getD i 0 else buffer i

/-- The copy loop of `loadGame` (lines 62-66): `memory[512 + i] = buffer[i]` for
`i` from 0 below `bufferSize`. -/
def copyLoop (buffer : Nat → Nat) (bufferSize : Nat) (memory : Nat → Nat) : Nat → Nat :=
  (List.range bufferSize).foldl (fun m i => store m (512 + i) (buffer i)) memory

/-- `Chip8::loadGame` (lines 51-73).  `file` is what `fopen` finds: `none` when
the file cannot be opened, `some rom` with the bytes the stream delivers
otherwise.  `buffer` is the content of the local array `buffer` at entry, which
the source does not set. -/
def loadGame (file : Option (List Nat)) (buffer : Nat → Nat) (s : Chip8) : Chip8 :=
  match file with
  | some rom =>
    let s1 := { s with out := s.out ++ [Output.readingRom] }
    let buffer1 := fread buffer (4096 - 512) rom
    let s2 := { s1 with out := s1.out ++ [Output.loadingBuffer] }
    { s2 with memory := copyLoop buffer1 (4096 - 512) s2.memory }
  | none => { s with out := s.out ++ [Output.fileUnreadable] }

/-- The fetch `memory[pc] << 8 | memory[pc + 1]` (line 86), truncated to the 16
bits of `opcode`. -/
def fetch (s : Chip8) : Nat :=
  (s.memory s.pc <<< 8 ||| s.memory (s.pc + 1)) % 65536

/-- The statement `pc += 2` on the 16-bit program counter. -/
def advance (pc : Nat) : Nat := (pc + 2) % 65536

/-- The `default:` branches: the diagnostic on `std::cerr`, then `pc += 2`. -/
def skipUnrecognized (s : Chip8) : Chip8 :=
  { s with pc := advance s.pc, out := s.out ++ [Output.notRecognized] }

/-- The `switch (opcode & 0xF000)` of `emulateCycle` (lines 92-295), on the
state whose `opcode` member holds the fetched word. -/
def execute (s : Chip8) : Chip8 :=
  let opcode := s.opcode
  match opcode &&& 0xF000 with
  | 0x0000 =>
    match opcode &&& 0x00FF with
    | 0x00E0 => { s with out := s.out ++ [Output.clearingDisplay opcode] }
    | 0x00EE => { s with out := s.out ++ [Output.returnFromSubroutine opcode] }
    | _ => skipUnrecognized s
  | 0x1000 => { s with pc := (opcode &&& 0x0FFF) % 65536 }
  | 0x2000 =>
    { s with
      stack := store s.stack s.sp s.pc
      sp := (s.sp + 1) % 65536
      pc := (opcode &&& 0x0FFF) % 65536 }
  | 0x3000 =>
    let kk := (opcode &&& 0x00FF) % 256
    let pc1 := if s.V (opcode >>> 8 &&& 0x0F) = kk then advance s.pc else s.pc
    { s with pc := advance pc1 }
  | 0x4000 =>
    let kk := (opcode &&& 0x00FF) % 256
    let pc1 := if s.V (opcode >>> 8 &&& 0x0F) ≠ kk then advance s.pc else s.pc
    { s with pc := advance pc1 }
  | 0x5000 =>
    let pc1 :=
      if s.V (opcode >>> 8 &&& 0x0F) = s.V (opcode >>> 4 &&& 0x00F) then advance s.pc
      else s.pc
    { s with pc := advance pc1 }
  | 0x6000 =>
    let kk := (opcode &&& 0x00FF) % 256
    { s with V := store s.V (opcode >>> 8 &&& 0x0F) kk }
  | 0x7000 =>
    let kk := (opcode &&& 0x00FF) % 256
    { s with
      V := store s.V (opcode >>> 8 &&& 0x0F) ((s.V (opcode >>> 8 &&& 0x0F) + kk) % 256) }
  | 0x8000 =>
    match opcode &&& 0x000F with
    | 0x0000 => s
    | 0x0001 => s
    | 0x0002 => s
    | 0x0003 => s
    | 0x0004 => s
    | 0x0005 => s
    | 0x0006 => s
    | 0x0007 => s
    | 0x000E => s
    | _ => skipUnrecognized s
  | 0x9000 => s
  | 0xA000 => s
  | 0xB000 => s
  | 0xC000 => s
  | 0xD000 => s
  | 0xE000 =>
    match opcode &&& 0x000F with
    | 0x000E => s
    | 0x0001 => s
    | _ => skipUnrecognized s
  | 0xF000 =>
    match opcode &&& 0x00FF with
    | 0x0007 => s
    | 0x000A => s
    | 0x0015 => s
    | 0x0018 => s
    | 0x001E => s
    | 0x0029 => s
    | 0x0033 => s
    | 0x0055 => s
    | 0x0065 => s
    | _ => skipUnrecognized s
  | _ => skipUnrecognized s

/-- The timer update that ends `emulateCycle` (lines 297-305). -/
def updateTimers (s : Chip8) : Chip8 :=
  let s1 := if s.delayTimer > 0 then { s with delayTimer := s.delayTimer - 1 } else s
  if s1.soundTimer > 0 then
    { s1 with out := s1.out ++ [Output.beep], soundTimer := s1.soundTimer - 1 }
  else s1

/-- `Chip8::emulateCycle` (lines 75-306): fetch into `opcode`, dispatch, update
the timers. -/
def emulateCycle (s : Chip8) : Chip8 :=
  updateTimers (execute { s with opcode := fetch s })

/-- The index of the stack store that the step on `s` executes: `case 0x2000`
runs `stack[sp] = pc` (line 125) under no condition, with the `sp` of entry; no
other case stores into `stack`.  The store is inside the 16-slot array when the
index is below 16. -/
def stackStoreIndex (s : Chip8) : Option Nat :=
  if fetch s &&& 0xF000 = 0x2000 then some s.sp else none

/-- The words that the `switch` of `emulateCycle` sends to one of its `default:`
branches, read off the `case` labels: family `0` by the low byte, families `8`
and `E` by the low nibble, family `F` by the low byte; the families `1`-`7`,
`9` and `A`-`D` have no `default:`. -/
def reachesDefault (op : Nat) : Bool :=
  match op &&& 0xF000 with
  | 0x0000 => !(op &&& 0x00FF == 0x00E0 || op &&& 0x00FF == 0x00EE)
  | 0x1000 => false
  | 0x2000 => false
  | 0x3000 => false
  | 0x4000 => false
  | 0x5000 => false
  | 0x6000 => false
  | 0x7000 => false
  | 0x8000 =>
    !(op &&& 0x000F == 0x0000 || op &&& 0x000F == 0x0001 || op &&& 0x000F == 0x0002
      || op &&& 0x000F == 0x0003 || op &&& 0x000F == 0x0004 || op &&& 0x000F == 0x0005
      || op &&& 0x000F == 0x0006 || op &&& 0x000F == 0x0007 || op &&& 0x000F == 0x000E)
  | 0x9000 => false
  | 0xA000 => false
  | 0xB000 => false
  | 0xC000 => false
  | 0xD000 => false
  | 0xE000 => !(op &&& 0x000F == 0x000E || op &&& 0x000F == 0x0001)
  | 0xF000 =>
    !(op &&& 0x00FF == 0x0007 || op &&& 0x00FF == 0x000A || op &&& 0x00FF == 0x0015
      || op &&& 0x00FF == 0x0018 || op &&& 0x00FF == 0x001E || op &&& 0x00FF == 0x0029
      || op &&& 0x00FF == 0x0033 || op &&& 0x00FF == 0x0055 || op &&& 0x00FF == 0x0065)
  | _ => true

/-! ## Instruction words, the instruction table, and sample machine states -/

/-- The instruction word with top nibble `hi`, register nibble `x` and low byte
`kk` (the patterns `3xkk`, `4xkk`, `6xkk`, `7xkk`). -/
def wordXKK (hi x kk : Nat) : Nat := hi * 4096 + x * 256 + kk

/-- The instruction word with top nibble `hi` and 12-bit operand `nnn` (the
patterns `1nnn`, `2nnn`). -/
def wordNNN (hi nnn : Nat) : Nat := hi * 4096 + nnn

/-- The instruction word with nibbles `hi`, `x`, `y`, `n` (the patterns `5xy0`,
`8xy4`, `9xy0`, `Dxyn`). -/
def wordXYN (hi x y n : Nat) : Nat := hi * 4096 + x * 256 + y * 16 + n

/-- The instruction table of the specification (section 4.3), as a predicate on
16-bit words: `specCanonical op` holds when `op` matches one of the opcode
patterns listed there. -/
def specCanonical (op : Nat) : Bool :=
  let hi := op / 4096 % 16
  let lo8 := op % 256
  let lo4 := op % 16
  op == 0x00E0 || op == 0x00EE
    || hi == 1 || hi == 2 || hi == 3 || hi == 4
    || (hi == 5 && lo4 == 0)
    || hi == 6 || hi == 7
    || (hi == 8 && (lo4 ≤ 7 || lo4 == 0xE))
    || (hi == 9 && lo4 == 0)
    || hi == 0xA || hi == 0xB || hi == 0xC || hi == 0xD
    || (hi == 0xE && (lo8 == 0x9E || lo8 == 0xA1))
    || (hi == 0xF && (lo8 == 0x07 || lo8 == 0x0A || lo8 == 0x15 || lo8 == 0x18
        || lo8 == 0x1E || lo8 == 0x29 || lo8 == 0x33 || lo8 == 0x55 || lo8 == 0x65))

/-- The bytes `bs` laid out from address `base` on, every other cell zero. -/
def bytesAt (base : Nat) (bs : List Nat) : Nat → Nat :=
  fun a => if base ≤ a then bs.getD (a - base) 0 else 0

/-- The machine right after reset: everything zero, `pc = 0x200`. -/
def blank : Chip8 :=
  { opcode := 0, memory := fun _ => 0, V := fun _ => 0, I := 0, pc := 0x200,
    gfx := fun _ => 0, delayTimer := 0, soundTimer := 0, stack := fun _ => 0,
    sp := 0, key := fun _ => 0, out := [] }

/-- A reset machine whose memory holds the bytes `bs` from `0x200` on. -/
def withProgram (bs : List Nat) : Chip8 :=
  { blank with memory := bytesAt 0x200 bs }

/-- A machine with `VA = 0xFF` about to execute `7A02`. -/
def addWrapState : Chip8 :=
  { withProgram [0x7A, 0x02] with V := store (fun _ => 0) 10 0xFF }

/-- A machine with `V3 = 0x42` about to execute `3342`. -/
def skipTakenState : Chip8 :=
  { withProgram [0x33, 0x42] with V := store (fun _ => 0) 3 0x42 }

/-- A machine at `pc = 0x200` with three return addresses on the stack, about to
execute `2300`. -/
def callState : Chip8 :=
  { withProgram [0x23, 0x00] with sp := 3, stack := bytesAt 0 [0x20A, 0x20C, 0x20E] }

/-- A reset machine with the call `2300` at `0x200` and the return `00EE` at
`0x300`. -/
def callReturnState : Chip8 :=
  { blank with memory := store (store (bytesAt 0x200 [0x23, 0x00]) 0x300 0x00) 0x301 0xEE }

/-- A reset machine whose program is the single instruction `2200` at `0x200`:
a subroutine that calls itself. -/
def selfCall : Chip8 := withProgram [0x22, 0x00]

/-- The self-calling machine after 16 steps, its 16 stack slots all in use. -/
def fullStack : Chip8 := emulateCycle^[16] selfCall

/-- The cells of the 4096-byte `memory` array hold bytes (`unsigned char`). -/
def ByteMemory (s : Chip8) : Prop := ∀ a, a < 4096 → s.memory a < 256

/-- A machine at `pc = 0x200` whose next instruction word is read from the bytes
`0x12`, `0x34`. -/
def fetchState : Chip8 :=
  { blank with memory := store (store (fun _ => 0) 0x200 0x12) 0x201 0x34 }

/-- A machine whose `pc` is at the last instruction slot, `4094`, over a zeroed
memory (the word there is `0x0000`). -/
def lastSlotState : Chip8 :=
  { blank with pc := 4094 }

/-- A machine at `pc = 4094` whose last instruction slot holds `3000` (skip if
`V0 = 0`), with `V0 = 0`. -/
def lastSlotSkipState : Chip8 :=
  { blank with pc := 4094, memory := store (fun _ => 0) 4094 0x30 }

/-- A machine with `VA = 0xFF`, `VB = 0x01` about to execute `8AB4`. -/
def carryState : Chip8 :=
  { withProgram [0x8A, 0xB4] with V := store (store (fun _ => 0) 10 0xFF) 11 0x01 }

/-- A machine with a blank framebuffer, `VF = 1`, `V0 = 0`, `I = 0x300` and the
one-row sprite `0x80` (leftmost pixel set) at `memory[0x300]`, about to execute
`D001`: draw that sprite at `(0, 0)`. -/
def drawState : Chip8 :=
  { blank with
    memory := store (store (store (fun _ => 0) 0x200 0xD0) 0x201 0x01) 0x300 0x80
    I := 0x300
    V := store (fun _ => 0) 15 1 }

/-- A machine about to execute `F30A` while key 5 is down. -/
def keyWaitState : Chip8 :=
  { withProgram [0xF3, 0x0A] with key := store (fun _ => 0) 5 1 }

/-- A ROM of `3585 = (4096 - 512) + 1` bytes, each `0xAB`. -/
def bigRom : List Nat := List.replicate 3585 0xAB

/-! ## The sample machine is a reset machine -/

theorem initialise_blank : initialise blank = blank := by
  unfold initialise blank
  simp

/-! ## Decoding lemmas -/

theorem and_F000 (hi lo : Nat) (hhi : hi < 16) (hlo : lo < 4096) :
    (hi * 4096 + lo) &&& 0xF000 = hi * 4096 := by
  have h1 : hi * 4096 + lo = 2 ^ 12 * hi ||| lo := by
    rw [← Nat.mul_add_lt_is_or (by simpa using hlo)]; omega
  have h2 : lo &&& 0xF000 = 0 := by
    apply Nat.eq_of_testBit_eq
    intro i
    rw [Nat.testBit_and]
    by_cases hi12 : i < 12
    · have hbit : Nat.testBit 0xF000 i = false := by
        interval_cases i <;> rfl
      simp [hbit]
    · have hbit : Nat.testBit lo i = false := by
        apply Nat.testBit_lt_two_pow
        calc lo < 2 ^ 12 := hlo
          _ ≤ 2 ^ i := Nat.pow_le_pow_right (by decide) (by omega)
      simp [hbit]
  rw [h1, Nat.and_distrib_right, h2]
  interval_cases hi <;> rfl

theorem and_0FFF (op : Nat) : op &&& 0x0FFF = op % 4096 :=
  Nat.and_pow_two_sub_one_eq_mod op 12

theorem and_00FF (op : Nat) : op &&& 0x00FF = op % 256 :=
  Nat.and_pow_two_sub_one_eq_mod op 8

theorem and_000F (op : Nat) : op &&& 0x000F = op % 16 :=
  Nat.and_pow_two_sub_one_eq_mod op 4

theorem shr8_and_0F (op : Nat) : op >>> 8 &&& 0x0F = op / 256 % 16 := by
  rw [and_000F, Nat.shiftRight_eq_div_pow]

theorem shr4_and_0F (op : Nat) : op >>> 4 &&& 0x00F = op / 16 % 16 := by
  rw [and_000F, Nat.shiftRight_eq_div_pow]

theorem wordXKK_top (hi x kk : Nat) (hhi : hi < 16) (hx : x < 16) (hkk : kk < 256) :
    wordXKK hi x kk &&& 0xF000 = hi * 4096 := by
  have h := and_F000 hi (x * 256 + kk) hhi (by omega)
  simpa [wordXKK, Nat.add_assoc] using h

theorem wordXKK_x (hi x kk : Nat) (hx : x < 16) (hkk : kk < 256) :
    wordXKK hi x kk >>> 8 &&& 0x0F = x := by
  rw [shr8_and_0F]; unfold wordXKK; omega

theorem wordXKK_kk (hi x kk : Nat) (hkk : kk < 256) :
    (wordXKK hi x kk &&& 0x00FF) % 256 = kk := by
  rw [and_00FF]; unfold wordXKK; omega

theorem wordNNN_top (hi nnn : Nat) (hhi : hi < 16) (hnnn : nnn < 4096) :
    wordNNN hi nnn &&& 0xF000 = hi * 4096 :=
  and_F000 hi nnn hhi hnnn

theorem wordNNN_nnn (hi nnn : Nat) (hnnn : nnn < 4096) :
    (wordNNN hi nnn &&& 0x0FFF) % 65536 = nnn := by
  rw [and_0FFF]; unfold wordNNN; omega

/-! ## The timer update touches nothing but the timers and the console -/

theorem updateTimers_pc (s : Chip8) : (updateTimers s).pc = s.pc := by
  unfold updateTimers; dsimp only; split_ifs <;> rfl

theorem updateTimers_V (s : Chip8) : (updateTimers s).V = s.V := by
  unfold updateTimers; dsimp only; split_ifs <;> rfl

theorem updateTimers_I (s : Chip8) : (updateTimers s).I = s.I := by
  unfold updateTimers; dsimp only; split_ifs <;> rfl

theorem updateTimers_sp (s : Chip8) : (updateTimers s).sp = s.sp := by
  unfold updateTimers; dsimp only; split_ifs <;> rfl

theorem updateTimers_stack (s : Chip8) : (updateTimers s).stack = s.stack := by
  unfold updateTimers; dsimp only; split_ifs <;> rfl

theorem updateTimers_memory (s : Chip8) : (updateTimers s).memory = s.memory := by
  unfold updateTimers; dsimp only; split_ifs <;> rfl

theorem updateTimers_gfx (s : Chip8) : (updateTimers s).gfx = s.gfx := by
  unfold updateTimers; dsimp only; split_ifs <;> rfl

theorem updateTimers_key (s : Chip8) : (updateTimers s).key = s.key := by
  unfold updateTimers; dsimp only; split_ifs <;> rfl

theorem updateTimers_opcode (s : Chip8) : (updateTimers s).opcode = s.opcode := by
  unfold updateTimers; dsimp only; split_ifs <;> rfl

/-! ## `6xkk` and `7xkk` -/

theorem execute_6xkk (s : Chip8) (x kk : Nat) (hx : x < 16) (hkk : kk < 256)
    (h : s.opcode = wordXKK 6 x kk) :
    execute s = { s with V := store s.V x kk } := by
  have ht := wordXKK_top 6 x kk (by decide) hx hkk
  simp only [execute, h, ht, wordXKK_x 6 x kk hx hkk, wordXKK_kk 6 x kk hkk]

theorem execute_7xkk (s : Chip8) (x kk : Nat) (hx : x < 16) (hkk : kk < 256)
    (h : s.opcode = wordXKK 7 x kk) :
    execute s = { s with V := store s.V x ((s.V x + kk) % 256) } := by
  have ht := wordXKK_top 7 x kk (by decide) hx hkk
  simp only [execute, h, ht, wordXKK_x 7 x kk hx hkk, wordXKK_kk 7 x kk hkk]

theorem emulateCycle_6xkk (s : Chip8) (x kk : Nat) (hx : x < 16) (hkk : kk < 256)
    (h : fetch s = wordXKK 6 x kk) :
    emulateCycle s = updateTimers { s with opcode := wordXKK 6 x kk, V := store s.V x kk } := by
  unfold emulateCycle
  rw [execute_6xkk _ x kk hx hkk h, h]

theorem emulateCycle_7xkk (s : Chip8) (x kk : Nat) (hx : x < 16) (hkk : kk < 256)
    (h : fetch s = wordXKK 7 x kk) :
    emulateCycle s =
      updateTimers { s with opcode := wordXKK 7 x kk, V := store s.V x ((s.V x + kk) % 256) } := by
  unfold emulateCycle
  rw [execute_7xkk _ x kk hx hkk h, h]

/-- C1 (evaluation at the failing input): with `6A42` at `pc = 0x200`, one step
loads `VA` but leaves `pc` at `0x200`; it is not advanced to `0x202`. -/
theorem load_immediate_pc_not_advanced :
    fetch (withProgram [0x6A, 0x42]) = wordXKK 6 10 0x42 ∧
      (withProgram [0x6A, 0x42]).pc = 0x200 ∧
      (emulateCycle (withProgram [0x6A, 0x42])).V 10 = 0x42 ∧
      (emulateCycle (withProgram [0x6A, 0x42])).pc = 0x200 := by
  decide

/-- C2: when the fetched opcode is `6xkk`, one step leaves `V[x] = kk` and every
other V register with its previous value. -/
theorem load_immediate_6xkk (s : Chip8) (x kk : Nat) (hx : x < 16) (hkk : kk < 256)
    (h : fetch s = wordXKK 6 x kk) :
    (emulateCycle s).V x = kk ∧ ∀ i, i ≠ x → (emulateCycle s).V i = s.V i := by
  rw [emulateCycle_6xkk s x kk hx hkk h, updateTimers_V]
  constructor
  · simp [store]
  · intro i hi
    simp [store, hi]

theorem load_immediate_6xkk_witness :
    (10 < 16 ∧ 0x42 < 256 ∧ fetch (withProgram [0x6A, 0x42]) = wordXKK 6 10 0x42) ∧
      ((emulateCycle (withProgram [0x6A, 0x42])).V 10 = 0x42 ∧
        ∀ i, i ≠ 10 →
          (emulateCycle (withProgram [0x6A, 0x42])).V i = (withProgram [0x6A, 0x42]).V i) :=
  ⟨⟨by decide, by decide, by decide⟩,
    load_immediate_6xkk (withProgram [0x6A, 0x42]) 10 0x42 (by decide) (by decide) (by decide)⟩

/-- C3: when the fetched opcode is `7xkk`, one step leaves
`V[x] = (old V[x] + kk) mod 256` and every other V register, `VF` included when
`x ≠ 15`, with its previous value. -/
theorem add_immediate_7xkk (s : Chip8) (x kk : Nat) (hx : x < 16) (hkk : kk < 256)
    (h : fetch s = wordXKK 7 x kk) :
    (emulateCycle s).V x = (s.V x + kk) % 256 ∧
      ∀ i, i ≠ x → (emulateCycle s).V i = s.V i := by
  rw [emulateCycle_7xkk s x kk hx hkk h, updateTimers_V]
  constructor
  · simp [store]
  · intro i hi
    simp [store, hi]

theorem add_immediate_7xkk_witness :
    (10 < 16 ∧ 0x02 < 256 ∧ fetch addWrapState = wordXKK 7 10 0x02) ∧
      ((emulateCycle addWrapState).V 10 = (addWrapState.V 10 + 0x02) % 256 ∧
        ∀ i, i ≠ 10 → (emulateCycle addWrapState).V i = addWrapState.V i) :=
  ⟨⟨by decide, by decide, by decide⟩,
    add_immediate_7xkk addWrapState 10 0x02 (by decide) (by decide) (by decide)⟩

/-! ## The skip instructions -/

theorem wordXYN_top (hi x y n : Nat) (hhi : hi < 16) (hx : x < 16) (hy : y < 16)
    (hn : n < 16) : wordXYN hi x y n &&& 0xF000 = hi * 4096 := by
  have h := and_F000 hi (x * 256 + y * 16 + n) hhi (by omega)
  simpa [wordXYN, Nat.add_assoc] using h

theorem wordXYN_x (hi x y n : Nat) (hx : x < 16) (hy : y < 16) (hn : n < 16) :
    wordXYN hi x y n >>> 8 &&& 0x0F = x := by
  rw [shr8_and_0F]; unfold wordXYN; omega

theorem wordXYN_y (hi x y n : Nat) (hy : y < 16) (hn : n < 16) :
    wordXYN hi x y n >>> 4 &&& 0x00F = y := by
  rw [shr4_and_0F]; unfold wordXYN; omega

theorem execute_3xkk (s : Chip8) (x kk : Nat) (hx : x < 16) (hkk : kk < 256)
    (h : s.opcode = wordXKK 3 x kk) :
    execute s = { s with pc := advance (if s.V x = kk then advance s.pc else s.pc) } := by
  have ht := wordXKK_top 3 x kk (by decide) hx hkk
  simp only [execute, h, ht, wordXKK_x 3 x kk hx hkk, wordXKK_kk 3 x kk hkk]

theorem execute_4xkk (s : Chip8) (x kk : Nat) (hx : x < 16) (hkk : kk < 256)
    (h : s.opcode = wordXKK 4 x kk) :
    execute s = { s with pc := advance (if s.V x ≠ kk then advance s.pc else s.pc) } := by
  have ht := wordXKK_top 4 x kk (by decide) hx hkk
  simp only [execute, h, ht, wordXKK_x 4 x kk hx hkk, wordXKK_kk 4 x kk hkk]

theorem execute_5xyn (s : Chip8) (x y n : Nat) (hx : x < 16) (hy : y < 16) (hn : n < 16)
    (h : s.opcode = wordXYN 5 x y n) :
    execute s = { s with pc := advance (if s.V x = s.V y then advance s.pc else s.pc) } := by
  have ht := wordXYN_top 5 x y n (by decide) hx hy hn
  simp only [execute, h, ht, wordXYN_x 5 x y n hx hy hn, wordXYN_y 5 x y n hy hn]

theorem advance_of_le (pc : Nat) (h : pc ≤ 4094) : advance pc = pc + 2 := by
  unfold advance; omega

theorem advance_advance_of_le (pc : Nat) (h : pc ≤ 4094) : advance (advance pc) = pc + 4 := by
  unfold advance; omega

/-- C4: when the fetched opcode is `3xkk` (both bytes of the word read inside the
4096-byte memory, `pc ≤ 4094`), one step leaves `pc = old pc + 4` if `V[x] = kk`
and `pc = old pc + 2` otherwise, and changes no V register, `I`, `sp` or stack
slot. -/
theorem skip_equal_3xkk (s : Chip8) (x kk : Nat) (hx : x < 16) (hkk : kk < 256)
    (hpc : s.pc ≤ 4094) (h : fetch s = wordXKK 3 x kk) :
    (emulateCycle s).pc = (if s.V x = kk then s.pc + 4 else s.pc + 2) ∧
      (emulateCycle s).V = s.V ∧ (emulateCycle s).I = s.I ∧
      (emulateCycle s).sp = s.sp ∧ (emulateCycle s).stack = s.stack := by
  unfold emulateCycle
  rw [execute_3xkk _ x kk hx hkk h, updateTimers_pc, updateTimers_V, updateTimers_I,
    updateTimers_sp, updateTimers_stack]
  refine ⟨?_, rfl, rfl, rfl, rfl⟩
  dsimp only
  split_ifs
  · exact advance_advance_of_le s.pc hpc
  · exact advance_of_le s.pc hpc

theorem skip_equal_3xkk_witness :
    (3 < 16 ∧ 0x42 < 256 ∧ skipTakenState.pc ≤ 4094 ∧
        fetch skipTakenState = wordXKK 3 3 0x42) ∧
      ((emulateCycle skipTakenState).pc =
          (if skipTakenState.V 3 = 0x42 then skipTakenState.pc + 4
            else skipTakenState.pc + 2) ∧
        (emulateCycle skipTakenState).V = skipTakenState.V ∧
        (emulateCycle skipTakenState).I = skipTakenState.I ∧
        (emulateCycle skipTakenState).sp = skipTakenState.sp ∧
        (emulateCycle skipTakenState).stack = skipTakenState.stack) :=
  ⟨⟨by decide, by decide, by decide, by decide⟩,
    skip_equal_3xkk skipTakenState 3 0x42 (by decide) (by decide) (by decide) (by decide)⟩

/-- The three skip instructions that `emulateCycle` implements (`3xkk`, `4xkk`,
`5xy0`) move `pc` by 2 or by 4. -/
theorem implemented_skips_pc (s : Chip8) (x y kk : Nat) (hx : x < 16) (hy : y < 16)
    (hkk : kk < 256) (hpc : s.pc ≤ 4094)
    (h : fetch s = wordXKK 3 x kk ∨ fetch s = wordXKK 4 x kk ∨ fetch s = wordXYN 5 x y 0) :
    (emulateCycle s).pc = s.pc + 2 ∨ (emulateCycle s).pc = s.pc + 4 := by
  unfold emulateCycle
  rw [updateTimers_pc]
  rcases h with h | h | h
  · rw [execute_3xkk _ x kk hx hkk h]
    dsimp only
    split_ifs
    · exact Or.inr (advance_advance_of_le s.pc hpc)
    · exact Or.inl (advance_of_le s.pc hpc)
  · rw [execute_4xkk _ x kk hx hkk h]
    dsimp only
    split_ifs
    · exact Or.inr (advance_advance_of_le s.pc hpc)
    · exact Or.inl (advance_of_le s.pc hpc)
  · rw [execute_5xyn _ x y 0 hx hy (by decide) h]
    dsimp only
    split_ifs
    · exact Or.inr (advance_advance_of_le s.pc hpc)
    · exact Or.inl (advance_of_le s.pc hpc)

/-- C5 (evaluation at the failing inputs): with `9120`, `E19E` or `E1A1` at
`pc = 0x200` on a reset machine, one step leaves `pc` at `0x200`: it moves by 0,
neither by 2 nor by 4. -/
theorem unimplemented_skips_pc_unchanged :
    (fetch (withProgram [0x91, 0x20]) = wordXYN 9 1 2 0 ∧
        (emulateCycle (withProgram [0x91, 0x20])).pc = (withProgram [0x91, 0x20]).pc) ∧
      (fetch (withProgram [0xE1, 0x9E]) = wordXKK 14 1 0x9E ∧
        (emulateCycle (withProgram [0xE1, 0x9E])).pc = (withProgram [0xE1, 0x9E]).pc) ∧
      (fetch (withProgram [0xE1, 0xA1]) = wordXKK 14 1 0xA1 ∧
        (emulateCycle (withProgram [0xE1, 0xA1])).pc = (withProgram [0xE1, 0xA1]).pc) := by
  decide

/-! ## Jump, call and return -/

theorem execute_1nnn (s : Chip8) (nnn : Nat) (hnnn : nnn < 4096)
    (h : s.opcode = wordNNN 1 nnn) : execute s = { s with pc := nnn } := by
  have ht := wordNNN_top 1 nnn (by decide) hnnn
  simp only [execute, h, ht, wordNNN_nnn 1 nnn hnnn]

theorem execute_2nnn (s : Chip8) (nnn : Nat) (hnnn : nnn < 4096)
    (h : s.opcode = wordNNN 2 nnn) :
    execute s =
      { s with stack := store s.stack s.sp s.pc, sp := (s.sp + 1) % 65536, pc := nnn } := by
  have ht := wordNNN_top 2 nnn (by decide) hnnn
  simp only [execute, h, ht, wordNNN_nnn 2 nnn hnnn]

/-- C6: when the fetched opcode is `1nnn`, one step leaves `pc = nnn` and the V
registers, `I`, `sp`, the stack and the memory unchanged. -/
theorem jump_1nnn (s : Chip8) (nnn : Nat) (hnnn : nnn < 4096)
    (h : fetch s = wordNNN 1 nnn) :
    (emulateCycle s).pc = nnn ∧ (emulateCycle s).V = s.V ∧ (emulateCycle s).I = s.I ∧
      (emulateCycle s).sp = s.sp ∧ (emulateCycle s).stack = s.stack ∧
      (emulateCycle s).memory = s.memory := by
  unfold emulateCycle
  rw [execute_1nnn _ nnn hnnn h, updateTimers_pc, updateTimers_V, updateTimers_I,
    updateTimers_sp, updateTimers_stack, updateTimers_memory]
  exact ⟨rfl, rfl, rfl, rfl, rfl, rfl⟩

theorem jump_1nnn_witness :
    (0xABC < 4096 ∧ fetch (withProgram [0x1A, 0xBC]) = wordNNN 1 0xABC) ∧
      ((emulateCycle (withProgram [0x1A, 0xBC])).pc = 0xABC ∧
        (emulateCycle (withProgram [0x1A, 0xBC])).V = (withProgram [0x1A, 0xBC]).V ∧
        (emulateCycle (withProgram [0x1A, 0xBC])).I = (withProgram [0x1A, 0xBC]).I ∧
        (emulateCycle (withProgram [0x1A, 0xBC])).sp = (withProgram [0x1A, 0xBC]).sp ∧
        (emulateCycle (withProgram [0x1A, 0xBC])).stack = (withProgram [0x1A, 0xBC]).stack ∧
        (emulateCycle (withProgram [0x1A, 0xBC])).memory =
          (withProgram [0x1A, 0xBC]).memory) :=
  ⟨⟨by decide, by decide⟩, jump_1nnn (withProgram [0x1A, 0xBC]) 0xABC (by decide) (by decide)⟩

/-- C7: when `sp < 16` and the fetched opcode is `2nnn`, one step leaves
`stack[old sp] = old pc`, `sp = old sp + 1`, `pc = nnn`, and every other stack
slot unchanged. -/
theorem call_2nnn (s : Chip8) (nnn : Nat) (hsp : s.sp < 16) (hnnn : nnn < 4096)
    (h : fetch s = wordNNN 2 nnn) :
    (emulateCycle s).stack s.sp = s.pc ∧ (emulateCycle s).sp = s.sp + 1 ∧
      (emulateCycle s).pc = nnn ∧
      ∀ i, i ≠ s.sp → (emulateCycle s).stack i = s.stack i := by
  unfold emulateCycle
  rw [execute_2nnn _ nnn hnnn h, updateTimers_pc, updateTimers_sp, updateTimers_stack]
  refine ⟨by simp [store], ?_, rfl, ?_⟩
  · show (s.sp + 1) % 65536 = s.sp + 1
    omega
  · intro i hi
    simp [store, hi]

theorem call_2nnn_witness :
    (callState.sp < 16 ∧ 0x300 < 4096 ∧ fetch callState = wordNNN 2 0x300) ∧
      ((emulateCycle callState).stack callState.sp = callState.pc ∧
        (emulateCycle callState).sp = callState.sp + 1 ∧
        (emulateCycle callState).pc = 0x300 ∧
        ∀ i, i ≠ callState.sp → (emulateCycle callState).stack i = callState.stack i) :=
  ⟨⟨by decide, by decide, by decide⟩,
    call_2nnn callState 0x300 (by decide) (by decide) (by decide)⟩

/-- C8 (evaluation at the failing input): the call `2300` dispatched at
`pc = 0x200`, `sp = 0` is followed by a step that fetches `00EE` at `0x300`;
after that step `pc` is still `0x300` and `sp` is still 1: neither is restored. -/
theorem call_return_not_restored :
    callReturnState.pc = 0x200 ∧ callReturnState.sp = 0 ∧
      fetch callReturnState = wordNNN 2 0x300 ∧
      fetch (emulateCycle callReturnState) = 0x00EE ∧
      (emulateCycle (emulateCycle callReturnState)).pc = 0x300 ∧
      (emulateCycle (emulateCycle callReturnState)).sp = 1 ∧
      (emulateCycle (emulateCycle callReturnState)).out =
        [Output.returnFromSubroutine 0x00EE] := by
  decide

/-! ## The seventeenth nested call -/

theorem updateTimers_out (s : Chip8) :
    (updateTimers s).out = s.out ∨ (updateTimers s).out = s.out ++ [Output.beep] := by
  unfold updateTimers; dsimp only; split_ifs
  · exact Or.inr rfl
  · exact Or.inl rfl
  · exact Or.inr rfl
  · exact Or.inl rfl

/-- C9 (evaluation at the failing input): the self-calling machine makes 16
calls from reset, the `k`-th storing at index `k < 16`, inside the stack; they
fill the 16 slots and leave `sp = 16` with nothing printed.  The next fetched
word is the call `2200` again, and its store `stack[sp] = pc` has index 16, past
the last slot `stack[15]`: the seventeenth call is executed like the others, with
no check of `sp`. -/
theorem seventeenth_call_stores_past_stack :
    (∀ k, k < 16 → stackStoreIndex (emulateCycle^[k] selfCall) = some k) ∧
      fullStack.sp = 16 ∧ (∀ i, i < 16 → fullStack.stack i = 0x200) ∧
      fullStack.out = [] ∧ fetch fullStack = wordNNN 2 0x200 ∧
      stackStoreIndex fullStack = some 16 := by
  decide

/-! ## Words that match no instruction -/

theorem execute_of_reachesDefault (s : Chip8) (h : reachesDefault s.opcode = true) :
    execute s = skipUnrecognized s := by
  unfold reachesDefault at h
  unfold execute
  dsimp only
  split <;> simp_all

theorem and_F000_eq (op : Nat) (hop : op < 65536) :
    op &&& 0xF000 = op / 4096 * 4096 := by
  have h := and_F000 (op / 4096) (op % 4096) (by omega) (by omega)
  have hsplit : op / 4096 * 4096 + op % 4096 = op := by omega
  rwa [hsplit] at h

/-- Every word that the decoder sends to a `default:` branch matches no pattern
of the instruction table. -/
theorem reachesDefault_not_canonical (op : Nat) (hop : op < 65536)
    (h : reachesDefault op = true) : specCanonical op = false := by
  have htop := and_F000_eq op hop
  have hlt : op / 4096 < 16 := by omega
  unfold reachesDefault at h
  rw [htop, and_00FF, and_000F] at h
  unfold specCanonical
  generalize hq : op / 4096 = q at h hlt htop ⊢
  interval_cases q <;> simp at h ⊢ <;> omega

/-- C10 (counterexample): `0x5121` matches no pattern of the instruction table,
yet on a reset machine (where `V1 = V2`) the step that fetches it moves `pc` from
`0x200` to `0x204`, as `5xy0` does. -/
theorem noncanonical_5121_skips :
    specCanonical 0x5121 = false ∧ fetch (withProgram [0x51, 0x21]) = 0x5121 ∧
      (withProgram [0x51, 0x21]).pc = 0x200 ∧
      (emulateCycle (withProgram [0x51, 0x21])).pc = 0x204 := by
  decide

/-- C10 (amended): when the fetched word (read at `pc ≤ 4094`) is one the decoder
sends to a `default:` branch, one step advances `pc` by exactly 2 and changes no
V register, `I`, `sp`, stack slot, memory byte or framebuffer cell. -/
theorem unrecognized_skipped (s : Chip8) (hpc : s.pc ≤ 4094)
    (h : reachesDefault (fetch s) = true) :
    (emulateCycle s).pc = s.pc + 2 ∧ (emulateCycle s).V = s.V ∧
      (emulateCycle s).I = s.I ∧ (emulateCycle s).sp = s.sp ∧
      (emulateCycle s).stack = s.stack ∧ (emulateCycle s).memory = s.memory ∧
      (emulateCycle s).gfx = s.gfx := by
  unfold emulateCycle
  rw [execute_of_reachesDefault _ h, updateTimers_pc, updateTimers_V, updateTimers_I,
    updateTimers_sp, updateTimers_stack, updateTimers_memory, updateTimers_gfx]
  exact ⟨advance_of_le s.pc hpc, rfl, rfl, rfl, rfl, rfl, rfl⟩

theorem unrecognized_skipped_witness :
    ((withProgram [0x01, 0x23]).pc ≤ 4094 ∧
        reachesDefault (fetch (withProgram [0x01, 0x23])) = true) ∧
      ((emulateCycle (withProgram [0x01, 0x23])).pc = (withProgram [0x01, 0x23]).pc + 2 ∧
        (emulateCycle (withProgram [0x01, 0x23])).V = (withProgram [0x01, 0x23]).V ∧
        (emulateCycle (withProgram [0x01, 0x23])).I = (withProgram [0x01, 0x23]).I ∧
        (emulateCycle (withProgram [0x01, 0x23])).sp = (withProgram [0x01, 0x23]).sp ∧
        (emulateCycle (withProgram [0x01, 0x23])).stack = (withProgram [0x01, 0x23]).stack ∧
        (emulateCycle (withProgram [0x01, 0x23])).memory =
          (withProgram [0x01, 0x23]).memory ∧
        (emulateCycle (withProgram [0x01, 0x23])).gfx = (withProgram [0x01, 0x23]).gfx) :=
  ⟨⟨by decide, by decide⟩,
    unrecognized_skipped (withProgram [0x01, 0x23]) (by decide) (by decide)⟩

/-- How the decoder treats the eight sample words: `0x0123`, `0x8128` and
`0xF0FF` reach a `default:` branch; `0x01E0`, `0x5121`, `0x9121`, `0xE00E` and
`0xE011` do not (they run as `00E0`, `5xy0`, `9xy0`, `Ex9E`, `ExA1`), although
none of the eight is in the instruction table. -/
theorem sample_words_decoding :
    (reachesDefault 0x0123 = true ∧ reachesDefault 0x8128 = true ∧
        reachesDefault 0xF0FF = true) ∧
      (reachesDefault 0x01E0 = false ∧ reachesDefault 0x5121 = false ∧
        reachesDefault 0x9121 = false ∧ reachesDefault 0xE00E = false ∧
        reachesDefault 0xE011 = false) ∧
      (specCanonical 0x0123 = false ∧ specCanonical 0x8128 = false ∧
        specCanonical 0xF0FF = false ∧ specCanonical 0x01E0 = false ∧
        specCanonical 0x5121 = false ∧ specCanonical 0x9121 = false ∧
        specCanonical 0xE00E = false ∧ specCanonical 0xE011 = false) := by
  decide

/-! ## What every step leaves alone -/

theorem execute_opcode (s : Chip8) : (execute s).opcode = s.opcode := by
  unfold execute; dsimp only
  split <;> (try split) <;> rfl

theorem execute_gfx (s : Chip8) : (execute s).gfx = s.gfx := by
  unfold execute; dsimp only
  split <;> (try split) <;> rfl

theorem execute_delayTimer (s : Chip8) : (execute s).delayTimer = s.delayTimer := by
  unfold execute; dsimp only
  split <;> (try split) <;> rfl

theorem execute_soundTimer (s : Chip8) : (execute s).soundTimer = s.soundTimer := by
  unfold execute; dsimp only
  split <;> (try split) <;> rfl

theorem updateTimers_delayTimer (s : Chip8) :
    (updateTimers s).delayTimer = if s.delayTimer > 0 then s.delayTimer - 1 else 0 := by
  unfold updateTimers; dsimp only
  split_ifs <;> first | rfl | omega | (dsimp only; omega)

theorem updateTimers_soundTimer (s : Chip8) :
    (updateTimers s).soundTimer = if s.soundTimer > 0 then s.soundTimer - 1 else 0 := by
  unfold updateTimers; dsimp only
  split_ifs <;> first | rfl | omega

theorem emulateCycle_delayTimer (s : Chip8) :
    (emulateCycle s).delayTimer = if s.delayTimer > 0 then s.delayTimer - 1 else 0 := by
  unfold emulateCycle
  rw [updateTimers_delayTimer, execute_delayTimer]

theorem emulateCycle_soundTimer (s : Chip8) :
    (emulateCycle s).soundTimer = if s.soundTimer > 0 then s.soundTimer - 1 else 0 := by
  unfold emulateCycle
  rw [updateTimers_soundTimer, execute_soundTimer]

/-! ## Fetch -/

theorem bigEndian_word (hi lo : Nat) (hhi : hi < 256) (hlo : lo < 256) :
    (hi <<< 8 ||| lo) % 65536 = hi * 256 + lo := by
  have h : 2 ^ 8 * hi + lo = 2 ^ 8 * hi ||| lo := Nat.mul_add_lt_is_or (by simpa using hlo) hi
  rw [Nat.shiftLeft_eq, Nat.mul_comm hi (2 ^ 8), ← h]
  omega

/-- C11: when `pc ≤ 4094` (both bytes are cells of the byte array `memory`), the
word that `emulateCycle` stores in `opcode` is `memory[pc] * 256 + memory[pc+1]`,
and the step is the dispatch on that word followed by the timer update. -/
theorem fetch_big_endian (s : Chip8) (hmem : ByteMemory s) (hpc : s.pc ≤ 4094) :
    (emulateCycle s).opcode = s.memory s.pc * 256 + s.memory (s.pc + 1) ∧
      emulateCycle s =
        updateTimers
          (execute { s with opcode := s.memory s.pc * 256 + s.memory (s.pc + 1) }) := by
  have hf : fetch s = s.memory s.pc * 256 + s.memory (s.pc + 1) :=
    bigEndian_word _ _ (hmem s.pc (by omega)) (hmem (s.pc + 1) (by omega))
  unfold emulateCycle
  rw [updateTimers_opcode, execute_opcode, hf]
  exact ⟨rfl, rfl⟩

theorem fetch_big_endian_witness :
    (ByteMemory fetchState ∧ fetchState.pc ≤ 4094) ∧
      ((emulateCycle fetchState).opcode =
          fetchState.memory fetchState.pc * 256 + fetchState.memory (fetchState.pc + 1) ∧
        emulateCycle fetchState =
          updateTimers
            (execute { fetchState with
              opcode :=
                fetchState.memory fetchState.pc * 256 +
                  fetchState.memory (fetchState.pc + 1) })) :=
  have hmem : ByteMemory fetchState := by
    intro a _
    simp only [fetchState, store]
    split_ifs <;> decide
  ⟨⟨hmem, by decide⟩, fetch_big_endian fetchState hmem (by decide)⟩

/-! ## Reset -/

/-- C12: after the reset, from any prior state, `pc = 0x200`, `I`, `sp`,
`opcode` and both timers are 0, all 4096 memory bytes, all 16 V registers, stack
slots and key states, and all 64*32 framebuffer cells are 0. -/
theorem reset_state (s : Chip8) :
    (initialise s).pc = 0x200 ∧ (initialise s).I = 0 ∧ (initialise s).sp = 0 ∧
      (initialise s).opcode = 0 ∧ (initialise s).delayTimer = 0 ∧
      (initialise s).soundTimer = 0 ∧
      (∀ i, i < 4096 → (initialise s).memory i = 0) ∧
      (∀ i, i < 16 → (initialise s).V i = 0) ∧
      (∀ i, i < 16 → (initialise s).stack i = 0) ∧
      (∀ i, i < 16 → (initialise s).key i = 0) ∧
      (∀ i, i < 64 * 32 → (initialise s).gfx i = 0) := by
  refine ⟨rfl, rfl, rfl, rfl, rfl, rfl, ?_, ?_, ?_, ?_, ?_⟩ <;>
    · intro i hi
      simp only [initialise]
      rw [if_pos hi]

/-! ## Timers -/

/-- C13: one step applies the timer decay exactly once and never below zero: the
new `delayTimer` is the old one minus 1 if it was positive and 0 if it was 0, and
likewise `soundTimer`; neither grows (no wrap-around to 255). -/
theorem timer_decay_once (s : Chip8) :
    (emulateCycle s).delayTimer = (if s.delayTimer > 0 then s.delayTimer - 1 else 0) ∧
      (emulateCycle s).soundTimer = (if s.soundTimer > 0 then s.soundTimer - 1 else 0) ∧
      (emulateCycle s).delayTimer ≤ s.delayTimer ∧
      (emulateCycle s).soundTimer ≤ s.soundTimer := by
  rw [emulateCycle_delayTimer, emulateCycle_soundTimer]
  refine ⟨rfl, rfl, ?_, ?_⟩ <;> split_ifs <;> omega

theorem execute_pc_cases (s : Chip8) :
    (execute s).pc = s.pc ∨ (execute s).pc = advance s.pc ∨
      (execute s).pc = advance (advance s.pc) ∨ (execute s).pc < 4096 := by
  unfold execute; dsimp only
  split <;> (try split) <;>
    first
    | exact Or.inl rfl
    | exact Or.inr (Or.inl rfl)
    | exact Or.inr (Or.inr (Or.inl rfl))
    | (refine Or.inr (Or.inr (Or.inr ?_))
       show _ % 65536 < 4096
       rw [and_0FFF]; omega)

/-- C15 (counterexample): at `pc = 4094` over a zeroed memory the step fetches
`0x0000`, prints the not-recognized line and leaves `pc = 4096`; with `3000` in
that slot and `V0 = 0` the step leaves `pc = 4098`.  Neither is below 4096 and
nothing else is reported. -/
theorem pc_leaves_memory :
    (lastSlotState.pc ≤ 4094 ∧ (emulateCycle lastSlotState).pc = 4096 ∧
        (emulateCycle lastSlotState).out = [Output.notRecognized]) ∧
      (lastSlotSkipState.pc ≤ 4094 ∧ fetch lastSlotSkipState = wordXKK 3 0 0 ∧
        (emulateCycle lastSlotSkipState).pc = 4098 ∧
        (emulateCycle lastSlotSkipState).out = []) := by
  decide

/-- C15 (amended): from `pc ≤ 4094` one step leaves `pc ≤ 4098`, and `pc < 4096`
when the old `pc` is at most 4091 (so that `pc + 4` is still an address). -/
theorem pc_after_step (s : Chip8) (hpc : s.pc ≤ 4094) :
    (emulateCycle s).pc ≤ 4098 ∧ (s.pc ≤ 4091 → (emulateCycle s).pc < 4096) := by
  unfold emulateCycle
  rw [updateTimers_pc]
  have hcases := execute_pc_cases { s with opcode := fetch s }
  have h2 := advance_of_le s.pc hpc
  have h4 := advance_advance_of_le s.pc hpc
  dsimp only at hcases
  rw [h4, h2] at hcases
  constructor
  · rcases hcases with h | h | h | h <;> omega
  · intro hle
    rcases hcases with h | h | h | h <;> omega

theorem pc_after_step_witness :
    (withProgram [0x33, 0x00]).pc ≤ 4094 ∧
      ((emulateCycle (withProgram [0x33, 0x00])).pc ≤ 4098 ∧
        ((withProgram [0x33, 0x00]).pc ≤ 4091 →
          (emulateCycle (withProgram [0x33, 0x00])).pc < 4096)) :=
  ⟨by decide, pc_after_step (withProgram [0x33, 0x00]) (by decide)⟩

/-! ## Handlers that are still empty: `8xy4`, `Dxyn`, `Fx0A` -/

theorem emulateCycle_gfx (s : Chip8) : (emulateCycle s).gfx = s.gfx := by
  unfold emulateCycle
  rw [updateTimers_gfx, execute_gfx]

/-- C16 (evaluation at the failing input): with `VA = 0xFF`, `VB = 0x01` the step
that fetches `8AB4` leaves `VA = 0xFF` and `VF = 0`; the sum `0x00` and the carry
1 are not written. -/
theorem add_registers_not_performed :
    fetch carryState = wordXYN 8 10 11 4 ∧ carryState.V 10 = 0xFF ∧
      carryState.V 11 = 0x01 ∧ (emulateCycle carryState).V 10 = 0xFF ∧
      (emulateCycle carryState).V 15 = 0 := by
  decide

/-- C17 (evaluation at the failing input): drawing the sprite `0x80` at `(0, 0)`
on a blank framebuffer with `VF = 1` leaves the framebuffer as it was, pixel
`(0, 0)` still 0, and `VF` still 1. -/
theorem draw_not_performed :
    fetch drawState = wordXYN 13 0 0 1 ∧ drawState.memory drawState.I = 0x80 ∧
      drawState.V 15 = 1 ∧ (emulateCycle drawState).gfx = drawState.gfx ∧
      (emulateCycle drawState).gfx 0 = 0 ∧ (emulateCycle drawState).V 15 = 1 :=
  ⟨by decide, by decide, by decide, emulateCycle_gfx drawState, by decide, by decide⟩

/-- C18 (evaluation at the failing input): with key 5 down, the step that fetches
`F30A` leaves `V3 = 0` and `pc = 0x200`, and so does a second step; the key index
5 is not written and `pc` is not advanced. -/
theorem key_wait_never_resumes :
    fetch keyWaitState = wordXKK 15 3 0x0A ∧ keyWaitState.key 5 = 1 ∧
      keyWaitState.pc = 0x200 ∧
      (emulateCycle keyWaitState).V 3 = 0 ∧ (emulateCycle keyWaitState).pc = 0x200 ∧
      (emulateCycle (emulateCycle keyWaitState)).V 3 = 0 ∧
      (emulateCycle (emulateCycle keyWaitState)).pc = 0x200 := by
  decide

/-! ## The framebuffer -/

/-- C20: when the fetched opcode is neither `00E0` nor a `Dxyn`, one step leaves
all 64*32 framebuffer cells unchanged (no case of the `switch` stores into
`gfx`). -/
theorem framebuffer_untouched (s : Chip8) (_hclear : fetch s ≠ 0x00E0)
    (_hdraw : ∀ x y n, x < 16 → y < 16 → n < 16 → fetch s ≠ wordXYN 13 x y n) :
    ∀ i, i < 64 * 32 → (emulateCycle s).gfx i = s.gfx i := by
  intro i _
  rw [emulateCycle_gfx]

theorem framebuffer_untouched_witness :
    (fetch (withProgram [0x6A, 0x42]) ≠ 0x00E0 ∧
        ∀ x y n, x < 16 → y < 16 → n < 16 →
          fetch (withProgram [0x6A, 0x42]) ≠ wordXYN 13 x y n) ∧
      ∀ i, i < 64 * 32 →
        (emulateCycle (withProgram [0x6A, 0x42])).gfx i = (withProgram [0x6A, 0x42]).gfx i :=
  have hf : fetch (withProgram [0x6A, 0x42]) = 0x6A42 := by decide
  have hdraw : ∀ x y n, x < 16 → y < 16 → n < 16 →
      fetch (withProgram [0x6A, 0x42]) ≠ wordXYN 13 x y n := by
    intro x y n _ _ _
    rw [hf]; unfold wordXYN; omega
  ⟨⟨by decide, hdraw⟩, framebuffer_untouched (withProgram [0x6A, 0x42]) (by decide) hdraw⟩

/-! ## Loading a ROM -/

theorem copyLoop_apply (buffer : Nat → Nat) (n : Nat) (memory : Nat → Nat) (a : Nat) :
    copyLoop buffer n memory a =
      if 512 ≤ a ∧ a < 512 + n then buffer (a - 512) else memory a := by
  unfold copyLoop
  induction n with
  | zero =>
    have hno : ¬(512 ≤ a ∧ a < 512 + 0) := by omega
    simp [hno]
  | succ k ih =>
    rw [List.range_succ, List.foldl_append, List.foldl_cons, List.foldl_nil]
    show (if a = 512 + k then buffer k
      else List.foldl (fun m i => store m (512 + i) (buffer i)) memory (List.range k) a) = _
    by_cases hlast : a = 512 + k
    · subst hlast
      have hyes : 512 ≤ 512 + k ∧ 512 + k < 512 + (k + 1) := by omega
      simp [hyes]
    · rw [if_neg hlast, ih]
      by_cases hin : 512 ≤ a ∧ a < 512 + k
      · have hin2 : 512 ≤ a ∧ a < 512 + (k + 1) := by omega
        rw [if_pos hin, if_pos hin2]
      · have hin2 : ¬(512 ≤ a ∧ a < 512 + (k + 1)) := by omega
        rw [if_neg hin, if_neg hin2]

theorem loadGame_some_memory (rom : List Nat) (buffer : Nat → Nat) (s : Chip8) (a : Nat) :
    (loadGame (some rom) buffer s).memory a =
      if 512 ≤ a ∧ a < 4096 then fread buffer (4096 - 512) rom (a - 512) else s.memory a := by
  simp only [loadGame, copyLoop_apply]

theorem loadGame_some_out (rom : List Nat) (buffer : Nat → Nat) (s : Chip8) :
    (loadGame (some rom) buffer s).out =
      s.out ++ [Output.readingRom, Output.loadingBuffer] := by
  simp [loadGame]

theorem bigRom_length : bigRom.length = 3585 := by
  unfold bigRom
  rw [List.length_replicate]

theorem bigRom_getD (i : Nat) (hi : i < 3585) : bigRom.getD i 0 = 0xAB := by
  have hlt : i < bigRom.length := by rw [bigRom_length]; exact hi
  rw [List.getD_eq_getElem _ _ hlt]
  unfold bigRom
  rw [List.getElem_replicate]

/-- C19 (counterexample): loading a ROM of 3585 bytes `0xAB` into the reset
machine prints the two progress lines and nothing else, and leaves
`memory[0x200] = memory[0xFFF] = 0xAB`, where the reset machine holds 0. -/
theorem oversized_rom_is_loaded :
    4096 - 512 < bigRom.length ∧ blank.memory 0x200 = 0 ∧
      (loadGame (some bigRom) (fun _ => 0) blank).memory 0x200 = 0xAB ∧
      (loadGame (some bigRom) (fun _ => 0) blank).memory 0xFFF = 0xAB ∧
      (loadGame (some bigRom) (fun _ => 0) blank).out =
        [Output.readingRom, Output.loadingBuffer] := by
  refine ⟨by rw [bigRom_length]; decide, rfl, ?_, ?_, ?_⟩
  · rw [loadGame_some_memory, if_pos (by decide)]
    unfold fread
    rw [if_pos ⟨by decide, by rw [bigRom_length]; decide⟩]
    exact bigRom_getD _ (by decide)
  · rw [loadGame_some_memory, if_pos (by decide)]
    unfold fread
    rw [if_pos ⟨by decide, by rw [bigRom_length]; decide⟩]
    exact bigRom_getD _ (by decide)
  · rw [loadGame_some_out]; rfl

/-- C19 (amended): for a ROM longer than `4096 - 512 = 3584` bytes `loadGame`
reports no error: it prints its two progress lines, copies the first 3584 bytes
of the ROM into `memory[0x200..0xFFF]` and leaves `memory[0..0x1FF]` as it
was. -/
theorem oversized_rom_truncated (rom : List Nat) (buffer : Nat → Nat) (s : Chip8)
    (hlen : 4096 - 512 < rom.length) :
    (∀ a, 512 ≤ a → a < 4096 →
        (loadGame (some rom) buffer s).memory a = rom.getD (a - 512) 0) ∧
      (∀ a, a < 512 → (loadGame (some rom) buffer s).memory a = s.memory a) ∧
      (loadGame (some rom) buffer s).out =
        s.out ++ [Output.readingRom, Output.loadingBuffer] := by
  refine ⟨?_, ?_, loadGame_some_out rom buffer s⟩
  · intro a h1 h2
    rw [loadGame_some_memory, if_pos ⟨h1, h2⟩]
    unfold fread
    rw [if_pos ⟨by omega, by omega⟩]
  · intro a h1
    rw [loadGame_some_memory, if_neg (by omega)]

theorem oversized_rom_truncated_witness :
    4096 - 512 < bigRom.length ∧
      ((∀ a, 512 ≤ a → a < 4096 →
          (loadGame (some bigRom) (fun _ => 0) blank).memory a = bigRom.getD (a - 512) 0) ∧
        (∀ a, a < 512 →
          (loadGame (some bigRom) (fun _ => 0) blank).memory a = blank.memory a) ∧
        (loadGame (some bigRom) (fun _ => 0) blank).out =
          blank.out ++ [Output.readingRom, Output.loadingBuffer]) :=
  have hlen : 4096 - 512 < bigRom.length := by rw [bigRom_length]; decide
  ⟨hlen, oversized_rom_truncated bigRom (fun _ => 0) blank hlen⟩

end ChipM8
